import Mathlib

/-!
Shallow embedding of the climate_tutorial repository
(src/climate_learn) for checking its natural-language specification.

Covered source:
* `data/climate_dataset/era5_multisource_continuous_iterdataset.py`
  (`NpyReader.__iter__` sharding, `Forecast.__iter__` lead times and
  output indices, `ShuffleIterableDataset.__iter__` buffering);
* `__init__.py` (`_validate_model_kwargs`, `_load_optimizer`,
  `_get_denorm`);
* `models/module.py` (`LitModule.replace_constant`);
* `models/hub/climatology.py` (`Climatology.forward`);
* `transforms/denormalize.py` (`Denormalize`).

Machine integers are modelled as `Nat`; the Python expression
`int(math.floor(a / float(b)))` and `int(a / b)` on nonnegative ints are
modelled as `Nat` division (they agree below 2^53, far beyond any file
count or world size here).  Exact real arithmetic is modelled over `ℚ`.
Randomness (`torch.randint`, `random.randint`, `random.shuffle`) is
modelled by an explicit source of draws: a function `g : Nat → Nat`
supplying one draw per step, reduced modulo the draw range, and a final
shuffle is an arbitrary permutation of the buffer.
-/

namespace ClimateLearn

universe u v

variable {α : Type u} {β : Type v}

/-- Python worker info (`torch.utils.data.get_worker_info()`): the
worker's id and the number of workers per dataloader process. -/
structure WorkerInfo where
  id : Nat
  num_workers : Nat
deriving DecidableEq, Repr

/-- The index range `(iter_start, iter_end)` computed by
`NpyReader.__iter__` before its `for idx in range(iter_start, iter_end)`
loop.  `n_files` is the length of `self.file_list` (after the optional
shuffle, which is the identity when `shuffle=False`), `rank` and
`world_size` come from `torch.distributed`, `num_nodes` is the parsed
`NODES` environment variable (used only when
`multi_dataset_training=True`). -/
def npyReaderRange (n_files : Nat) (worker : Option WorkerInfo)
    (rank world_size : Nat) (multi_dataset_training : Bool)
    (num_nodes : Nat) : Nat × Nat :=
  match worker with
  | none => (0, n_files)
  | some wi =>
    let num_workers_per_ddp := wi.num_workers
    if multi_dataset_training then
      let num_gpus_per_node := world_size / num_nodes
      let num_shards := num_workers_per_ddp * num_gpus_per_node
      let rank' := rank % num_gpus_per_node
      let per_worker := n_files / num_shards
      let worker_id := rank' * num_workers_per_ddp + wi.id
      (worker_id * per_worker, worker_id * per_worker + per_worker)
    else
      let num_shards := num_workers_per_ddp * world_size
      let per_worker := n_files / num_shards
      let worker_id := rank * num_workers_per_ddp + wi.id
      (worker_id * per_worker, worker_id * per_worker + per_worker)

/-- The file indices the `for idx in range(iter_start, iter_end)` loop
of `NpyReader.__iter__` visits. -/
def npyReaderIndices (n_files : Nat) (worker : Option WorkerInfo)
    (rank world_size : Nat) (multi_dataset_training : Bool)
    (num_nodes : Nat) : List Nat :=
  let r := npyReaderRange n_files worker rank world_size
    multi_dataset_training num_nodes
  List.range' r.1 (r.2 - r.1)

/-- The files `NpyReader.__iter__` yields (each `yield` loads
`self.file_list[idx]`); an out-of-range index is `none` (a Python
`IndexError`). -/
def npyReaderYield (file_list : List α) (worker : Option WorkerInfo)
    (rank world_size : Nat) (multi_dataset_training : Bool)
    (num_nodes : Nat) : List (Option α) :=
  (npyReaderIndices file_list.length worker rank world_size
    multi_dataset_training num_nodes).map file_list.get?

/-- `torch.randint(low=low, high=high, ...)` at position `i`, with
`g` the source of raw draws: a uniform sample in `[low, high)`. -/
def torchRandint (low high : Nat) (g : Nat → Nat) (i : Nat) : Nat :=
  low + g i % (high - low)

/-- `predict_ranges[i]` in `Forecast.__iter__`:
`torch.randint(low=min_pred_range, high=max_pred_range+1, ...)` when
`random_lead_time`, otherwise `max_pred_range` everywhere. -/
def predictRanges (random_lead_time : Bool) (min_pred_range max_pred_range : Nat)
    (g : Nat → Nat) (i : Nat) : Nat :=
  if random_lead_time then torchRandint min_pred_range (max_pred_range + 1) g i
  else max_pred_range

/-- `lead_times = self.hrs_each_step * predict_ranges / 100` in
`Forecast.__iter__`, in exact arithmetic (the subsequent
`.to(dtype)` cast is the identity in this model). -/
def leadTimes (hrs_each_step : ℚ) (pr : Nat → Nat) (i : Nat) : ℚ :=
  hrs_each_step * (pr i) / 100

/-- `(self.history - 1) * self.window + self.max_pred_range`, the
magnitude of the negative slice bound `last_idx` in
`Forecast.__iter__`. -/
def lastOffset (history window max_pred_range : Nat) : Nat :=
  (history - 1) * window + max_pred_range

/-- The time axis of `inp_data[k][:, :last_idx]` where
`last_idx = -m` with `m = (history-1)*window + max_pred_range` (for
`history ≥ 1`, so that `m` is nonnegative): when `m > 0` the Python
slice `x[:-m]` keeps the first `len(x) - m` entries (empty when
`m ≥ len(x)`), but when `m = 0` the bound `-0` is just `0` and `x[:0]`
is empty. -/
def truncateInput (xs : List α) (history window max_pred_range : Nat) : List α :=
  if lastOffset history window max_pred_range = 0 then []
  else xs.take (xs.length - lastOffset history window max_pred_range)

/-- `output_ids[i] = i + (self.history - 1) * self.window +
predict_ranges[i]` in `Forecast.__iter__`. -/
def outputId (i history window r : Nat) : Nat :=
  i + (history - 1) * window + r

/-- One pass of `ShuffleIterableDataset.__iter__` over the underlying
stream: fold the incoming elements through the buffer.  `bs` is
`buffer_size`, `g step % bs` models `random.randint(0, buffer_size-1)`
at the step-th full-buffer event.  Returns `(final buffer, yielded
prefix)`: the elements yielded inside the `for` loop, in order, and the
buffer left for the final `random.shuffle(buf); while buf: yield
buf.pop()` phase. -/
def shuffleRun (bs : Nat) (g : Nat → Nat) :
    Nat → List α → List α → List α × List α
  | _, buf, [] => (buf, [])
  | step, buf, x :: xs =>
    if buf.length = bs then
      let idx := g step % bs
      let rest := shuffleRun bs g (step + 1) (buf.set idx x) xs
      (rest.1, buf.getD idx x :: rest.2)
    else
      shuffleRun bs g (step + 1) (buf ++ [x]) xs

/-- The full output stream of `ShuffleIterableDataset.__iter__`: the
in-loop yields followed by the shuffled drain of the buffer, where
`final_order` is the order `random.shuffle` left the buffer in (popping
from the back enumerates it reversed; any permutation of the final
buffer is admissible for `final_order`). -/
def shuffleIterOutput (bs : Nat) (g : Nat → Nat) (xs final_order : List α) :
    List α :=
  (shuffleRun bs g 0 [] xs).2 ++ final_order

/-- Python errors raised by the module-loading layer of
`climate_learn/__init__.py`. -/
inductive PyError where
  | runtimeError
  | notImplementedError
  | attributeError
deriving DecidableEq, Repr

/-- Python truthiness of an `Optional[str]`: `None` and `""` are falsy. -/
def truthyStr : Option String → Bool
  | none => false
  | some s => s ≠ ""

/-- `_validate_model_kwargs(preset, model, model_kwargs, net)`:
raises `RuntimeError` when `preset`, `model` and `net` are all `None`;
otherwise sets `model = preset` when `preset` is truthy (warnings are
no-ops) and returns `model`.  `net` is any `nn.Module` (always truthy
when present); `model_kwargs` only affects a warning. -/
def validate_model_kwargs (preset model : Option String) (net : Option Unit) :
    Except PyError (Option String) :=
  if preset.isNone && model.isNone && net.isNone then
    .error .runtimeError
  else
    .ok (if truthyStr preset then preset else model)

/-- The optimizer value `_load_optimizer` can build. -/
inductive OptimResult where
  | sgd
  | adam
  | adamw
  | prebuilt
  | withScheduler (o : OptimResult)
deriving DecidableEq, Repr

/-- `_load_optimizer(net, optim, optim_kwargs, lr_kwargs, optimizer)`.
`netHasParams` is `len(list(net.parameters())) > 0`.  Mirrors the
source order: the empty-parameter early return, the
`optim`/`optimizer` conflict `RuntimeError`, then the dispatch chain
`optim.startswith("SGD") / ("Adam") / ("AdamW") / elif optim is not
None: NotImplementedError` — when `optim` is `None` the very first
`optim.startswith("SGD")` is an attribute access on `None` and raises
`AttributeError` — and finally the `optim.endswith("CosineAnnealingLR")`
scheduler wrapping. -/
def load_optimizer (netHasParams : Bool) (optim : Option String)
    (optimizer : Option OptimResult) : Except PyError (Option OptimResult) :=
  if !netHasParams then
    .ok none
  else if optim.isSome && optimizer.isSome then
    .error .runtimeError
  else
    match optim with
    | none => .error .attributeError
    | some s =>
      let base : Except PyError OptimResult :=
        if s.startsWith "SGD" then .ok .sgd
        else if s.startsWith "Adam" then .ok .adam
        else if s.startsWith "AdamW" then .ok .adamw
        else .error .notImplementedError
      match base with
      | .error e => .error e
      | .ok o =>
        if s.endsWith "CosineAnnealingLR" then .ok (some (.withScheduler o))
        else .ok (some o)

/-- `LitModule.replace_constant(y, yhat, out_variables)`: tensors are
channel-indexed families (the whole `[:, i]` slice is one value of type
`α`); `C` is `yhat.shape[1]`.  The loop assigns `yhat[:, i] = y[:, i]`
for every channel whose variable is in `CONSTANTS` (an arbitrary string
list here, since the claim is generic in it). -/
def replace_constant (constants out_variables : List String) (C : Nat)
    (y yhat : Nat → α) : Nat → α :=
  (List.range C).foldl
    (fun acc i =>
      if out_variables.getD i "" ∈ constants then Function.update acc i (y i)
      else acc)
    yhat

/-- Channel-wise `torchvision.transforms.Normalize(mean, std)`:
`(x - mean) / std`, in exact arithmetic. -/
def tvNormalize (mean std x : ℚ) : ℚ :=
  (x - mean) / std

/-- The per-channel statistics built by `Denormalize.__init__` and
`_get_denorm`: `std_denorm = 1 / std_norm` and
`mean_denorm = -mean_norm * std_denorm`; the denormalizer is
`transforms.Normalize(mean_denorm, std_denorm)`. -/
def denormalize (mean_norm std_norm x : ℚ) : ℚ :=
  tvNormalize (-mean_norm * (1 / std_norm)) (1 / std_norm) x

/-- A batched input tensor for `Climatology.forward`: its leading
dimension and its (otherwise unused) contents. -/
structure BatchedInput (β : Type v) where
  batch : Nat
  values : Nat → β

/-- `Climatology.forward(x)`: `self.clim.unsqueeze(0).repeat(x.shape[0],
1, 1, 1)` — the stored `[C,H,W]` climatology (one abstract value `clim`)
replicated along a new leading dimension of size `x.shape[0]`. -/
def climatologyForward (clim : α) (x : BatchedInput β) : List α :=
  List.replicate x.batch clim

/-- C9: the channel-wise affine map built by `Denormalize` / `_get_denorm`
(scale `1/std`, shift `-mean/std`) is a left inverse of normalization with
the same statistics: for every nonzero `std`, `denormalize (normalize x) = x`
in exact arithmetic. -/
theorem denormalize_normalize_id (mean std x : ℚ) (h : std ≠ 0) :
    denormalize mean std (tvNormalize mean std x) = x := by
  unfold denormalize tvNormalize
  field_simp

/-- Witness for `denormalize_normalize_id` at `mean = 5`, `std = 3`, `x = 7`. -/
theorem denormalize_normalize_id_witness :
    (3 : ℚ) ≠ 0 ∧ denormalize 5 3 (tvNormalize 5 3 7) = 7 :=
  ⟨by norm_num, denormalize_normalize_id 5 3 7 (by norm_num)⟩

/-- C10: `Climatology.forward(x)` returns the stored climatology replicated
`x.shape[0]` times along a new leading dimension; the output depends only on
the batch size of `x`, never on its values. -/
theorem climatology_forward_spec (clim : α) (x : BatchedInput β) :
    (climatologyForward clim x).length = x.batch ∧
    (∀ y ∈ climatologyForward clim x, y = clim) ∧
    (∀ x2 : BatchedInput β, x2.batch = x.batch →
      climatologyForward clim x2 = climatologyForward clim x) := by
  refine ⟨List.length_replicate _ _, ?_, ?_⟩
  · intro y hy
    exact List.eq_of_mem_replicate hy
  · intro x2 h
    unfold climatologyForward
    rw [h]

/-- Witness for `climatology_forward_spec`: two concrete inputs with equal
batch size but different values give equal outputs. -/
theorem climatology_forward_spec_witness :
    climatologyForward (0 : Nat) (BatchedInput.mk 2 (fun _ => (1 : Nat))) =
      climatologyForward (0 : Nat) (BatchedInput.mk 2 (fun _ => (2 : Nat))) :=
  (climatology_forward_spec 0 (BatchedInput.mk 2 (fun _ => (2 : Nat)))).2.2
    (BatchedInput.mk 2 (fun _ => (1 : Nat))) rfl

/-- C4 (code bug exhibit): calling `_load_optimizer` with a net that has
trainable parameters, `optim=None` and a prebuilt `optimizer` reaches
`optim.startswith("SGD")` with `optim = None` and raises `AttributeError` —
not one of the advertised validation raises, and the call does not
complete. -/
theorem load_optimizer_prebuilt_attribute_error :
    load_optimizer true none (some OptimResult.prebuilt) =
      Except.error PyError.attributeError := rfl

/-- C7 counterexample: `preset` given as the empty string (a non-`None`
value that is falsy in Python) together with `model = "m"`: the call does
not raise, but returns `model`, not `preset`. -/
theorem validate_model_kwargs_preset_empty_cex :
    validate_model_kwargs (some "") (some "m") none = Except.ok (some "m") ∧
    (some "m" : Option String) ≠ some "" := by
  refine ⟨rfl, ?_⟩
  intro h
  simp at h

/-- C7 (amended): `_validate_model_kwargs` raises `RuntimeError` iff
`preset`, `model` and `net` are all `None`; when it does not raise it
returns `preset` when `preset` is truthy (non-`None` and nonempty), and
otherwise returns `model`. -/
theorem validate_model_kwargs_spec (preset model : Option String)
    (net : Option Unit) :
    (validate_model_kwargs preset model net = Except.error PyError.runtimeError ↔
      preset = none ∧ model = none ∧ net = none) ∧
    (¬(preset = none ∧ model = none ∧ net = none) →
      validate_model_kwargs preset model net =
        Except.ok (if truthyStr preset then preset else model)) := by
  unfold validate_model_kwargs
  rcases preset with _ | p <;> rcases model with _ | m <;>
    rcases net with _ | n <;> simp

/-- Witness for `validate_model_kwargs_spec` at
`preset = "p"`, `model = "m"`, `net = None`. -/
theorem validate_model_kwargs_spec_witness :
    validate_model_kwargs (some "p") (some "m") none = Except.ok (some "p") := by
  have h := (validate_model_kwargs_spec (some "p") (some "m") none).2
    (by simp)
  simpa [truthyStr] using h

/-- C3: in `Forecast.__iter__`, with `random_lead_time=True` every sampled
predict range lies in `[min_pred_range, max_pred_range]`; with
`random_lead_time=False` every predict range equals `max_pred_range`; and
the lead time of each sample is `hrs_each_step * r / 100` (the `.to(dtype)`
cast is the identity on exact values). -/
theorem forecast_predict_range_spec (min_pred max_pred : Nat) (g : Nat → Nat)
    (hrs : ℚ) (h : min_pred ≤ max_pred) (i : Nat) :
    (min_pred ≤ predictRanges true min_pred max_pred g i ∧
      predictRanges true min_pred max_pred g i ≤ max_pred) ∧
    predictRanges false min_pred max_pred g i = max_pred ∧
    (∀ b : Bool, leadTimes hrs (predictRanges b min_pred max_pred g) i =
      hrs * (predictRanges b min_pred max_pred g i) / 100) := by
  refine ⟨⟨?_, ?_⟩, rfl, fun b => rfl⟩
  · unfold predictRanges torchRandint
    simp
  · unfold predictRanges torchRandint
    simp only [if_true]
    have hm : g i % (max_pred + 1 - min_pred) < max_pred + 1 - min_pred :=
      Nat.mod_lt _ (by omega)
    omega

/-- Witness for `forecast_predict_range_spec` at `min = 2`, `max = 5`,
draws `g n = n + 7`, `hrs = 6`, position `i = 0`. -/
theorem forecast_predict_range_spec_witness :
    (2 : Nat) ≤ 5 ∧
    ((2 ≤ predictRanges true 2 5 (fun n => n + 7) 0 ∧
      predictRanges true 2 5 (fun n => n + 7) 0 ≤ 5) ∧
    predictRanges false 2 5 (fun n => n + 7) 0 = 5 ∧
    (∀ b : Bool, leadTimes 6 (predictRanges b 2 5 (fun n => n + 7)) 0 =
      6 * (predictRanges b 2 5 (fun n => n + 7) 0) / 100)) :=
  ⟨by decide, forecast_predict_range_spec 2 5 (fun n => n + 7) 6 (by decide) 0⟩

/-- C5 counterexample: at `history = 1`, `max_pred_range = 0` (legal in the
constructor, with `min_pred_range = max_pred_range = 0`) the offset is `0`,
so `last_idx = -0 = 0` and the slice `x[:, :0]` is empty: over one time
step (`T = 1 > 0` = offset) the truncated length is `0`, not
`T - offset = 1`. -/
theorem forecast_truncation_zero_offset_cex :
    lastOffset 1 6 0 < ([0] : List Nat).length ∧
    (truncateInput ([0] : List Nat) 1 6 0).length ≠
      ([0] : List Nat).length - lastOffset 1 6 0 := by
  decide

/-- C5 (amended): when `history ≥ 1` and the offset
`(history-1)*window + max_pred_range` is positive and `T` exceeds it, the
truncated input length is exactly `T` minus that offset, and every output
index `i + (history-1)*window + r` with `i` below that length and
`r ≤ max_pred_range` stays strictly below `T`. -/
theorem forecast_output_index_bounds (xs : List α)
    (history window max_pred : Nat)
    (hh : 1 ≤ history)
    (hm : 0 < lastOffset history window max_pred)
    (hT : lastOffset history window max_pred < xs.length) :
    (truncateInput xs history window max_pred).length =
      xs.length - lastOffset history window max_pred ∧
    ∀ i < (truncateInput xs history window max_pred).length,
      ∀ r ≤ max_pred, outputId i history window r < xs.length := by
  have hlen : (truncateInput xs history window max_pred).length =
      xs.length - lastOffset history window max_pred := by
    unfold truncateInput
    rw [if_neg (by omega), List.length_take]
    omega
  refine ⟨hlen, ?_⟩
  intro i hi r hr
  rw [hlen] at hi
  unfold lastOffset at hi hT
  unfold outputId
  omega

/-- Witness for `forecast_output_index_bounds`: ten time steps,
`history = 2`, `window = 3`, `max_pred_range = 4` (offset `0 < 7 < 10`). -/
theorem forecast_output_index_bounds_witness :
    (1 ≤ 2 ∧ 0 < lastOffset 2 3 4 ∧ lastOffset 2 3 4 < (List.range 10).length) ∧
    ((truncateInput (List.range 10) 2 3 4).length =
      (List.range 10).length - lastOffset 2 3 4 ∧
    ∀ i < (truncateInput (List.range 10) 2 3 4).length,
      ∀ r ≤ 4, outputId i 2 3 r < (List.range 10).length) :=
  ⟨by decide,
    forecast_output_index_bounds (List.range 10) 2 3 4 (by decide) (by decide)
      (by decide)⟩

/-- Reading list entries over a contiguous in-bounds index range is the
corresponding slice. -/
theorem range'_map_get_eq_slice (fl : List α) (p : Nat) :
    ∀ s : Nat, s + p ≤ fl.length →
      (List.range' s p).map fl.get? = ((fl.drop s).take p).map some := by
  induction p with
  | zero =>
    intro s _
    simp
  | succ p ih =>
    intro s h
    have hs : s < fl.length := by omega
    rw [List.range'_succ, List.drop_eq_getElem_cons hs]
    simp only [List.map_cons, List.take_succ_cons]
    rw [List.get?_eq_get hs, ih (s + 1) (by omega)]
    rfl

/-- Two distinct length-`p` shards `[w*p, (w+1)*p)` are disjoint. -/
theorem shard_intervals_disjoint {p w1 w2 j : Nat} (hne : w1 ≠ w2)
    (h1 : w1 * p ≤ j ∧ j < w1 * p + p)
    (h2 : w2 * p ≤ j ∧ j < w2 * p + p) : False := by
  rcases Nat.lt_or_ge w1 w2 with hlt | hge
  · have hle : w1 * p + p ≤ w2 * p := by
      rw [← Nat.succ_mul]
      exact Nat.mul_le_mul_right p hlt
    exact Nat.lt_irrefl j (lt_of_lt_of_le h1.2 (le_trans hle h2.1))
  · have hlt : w2 < w1 := lt_of_le_of_ne hge (Ne.symm hne)
    have hle : w2 * p + p ≤ w1 * p := by
      rw [← Nat.succ_mul]
      exact Nat.mul_le_mul_right p hlt
    exact Nat.lt_irrefl j (lt_of_lt_of_le h2.2 (le_trans hle h1.1))

/-- The `multi_dataset_training=False` index range of `NpyReader.__iter__`,
unfolded. -/
theorem npyReaderRange_single (n W ws rank wid num_nodes : Nat) :
    npyReaderRange n (some (WorkerInfo.mk wid W)) rank ws false num_nodes =
      ((rank * W + wid) * (n / (W * ws)),
       (rank * W + wid) * (n / (W * ws)) + n / (W * ws)) := rfl

/-- The global worker id is below the shard count. -/
theorem worker_id_lt_shards {W ws rank wid : Nat} (hr : rank < ws)
    (hw : wid < W) : rank * W + wid + 1 ≤ W * ws := by
  have h1 : rank * W + wid + 1 ≤ rank * W + W := by omega
  have h2 : rank * W + W = (rank + 1) * W := by ring
  have h3 : (rank + 1) * W ≤ ws * W := Nat.mul_le_mul_right W hr
  rw [h2] at h1
  calc rank * W + wid + 1 ≤ (rank + 1) * W := h1
    _ ≤ ws * W := h3
    _ = W * ws := Nat.mul_comm ws W

/-- C1: with `multi_dataset_training=False` and `shuffle=False`, the worker
with global id `w = rank * W + worker_id` yields exactly
`per_worker = ⌊n_files / (W * world_size)⌋` files, namely the contiguous
slice `file_list[w*per_worker : (w+1)*per_worker]`; the shards of distinct
global worker ids are pairwise disjoint, and the trailing
`n_files mod (W * world_size)` files are yielded by no worker. -/
theorem npyReader_single_dataset_sharding (fl : List α)
    (W ws rank wid num_nodes : Nat)
    (hW : 0 < W) (hws : 0 < ws) (hr : rank < ws) (hw : wid < W) :
    (npyReaderYield fl (some (WorkerInfo.mk wid W)) rank ws false num_nodes =
      ((fl.drop ((rank * W + wid) * (fl.length / (W * ws)))).take
        (fl.length / (W * ws))).map some ∧
    (npyReaderYield fl (some (WorkerInfo.mk wid W)) rank ws false
      num_nodes).length = fl.length / (W * ws)) ∧
    (∀ rank2 wid2, rank2 < ws → wid2 < W →
      rank * W + wid ≠ rank2 * W + wid2 →
      ∀ j, j ∈ npyReaderIndices fl.length (some (WorkerInfo.mk wid W)) rank ws
          false num_nodes →
        j ∉ npyReaderIndices fl.length (some (WorkerInfo.mk wid2 W)) rank2 ws
          false num_nodes) ∧
    (∀ j, fl.length - fl.length % (W * ws) ≤ j →
      j ∉ npyReaderIndices fl.length (some (WorkerInfo.mk wid W)) rank ws
        false num_nodes) := by
  have hindices : ∀ r' w' : Nat,
      npyReaderIndices fl.length (some (WorkerInfo.mk w' W)) r' ws false
        num_nodes =
      List.range' ((r' * W + w') * (fl.length / (W * ws)))
        (fl.length / (W * ws)) := by
    intro r' w'
    unfold npyReaderIndices
    rw [npyReaderRange_single]
    simp
  have hSp : W * ws * (fl.length / (W * ws)) ≤ fl.length := by
    rw [Nat.mul_comm]
    exact Nat.div_mul_le_self fl.length (W * ws)
  have hbound : (rank * W + wid) * (fl.length / (W * ws)) +
      fl.length / (W * ws) ≤ fl.length := by
    rw [← Nat.succ_mul]
    calc (rank * W + wid + 1) * (fl.length / (W * ws))
        ≤ W * ws * (fl.length / (W * ws)) :=
          Nat.mul_le_mul_right _ (worker_id_lt_shards hr hw)
      _ ≤ fl.length := hSp
  refine ⟨⟨?_, ?_⟩, ?_, ?_⟩
  · unfold npyReaderYield
    rw [hindices]
    exact range'_map_get_eq_slice fl _ _ hbound
  · unfold npyReaderYield
    rw [hindices]
    simp
  · intro rank2 wid2 _ _ hne j hj hj2
    rw [hindices] at hj hj2
    rw [List.mem_range'_1] at hj hj2
    exact shard_intervals_disjoint hne ⟨hj.1, hj.2⟩ ⟨hj2.1, hj2.2⟩
  · intro j hjtail hj
    rw [hindices, List.mem_range'_1] at hj
    have htot : fl.length - fl.length % (W * ws) =
        W * ws * (fl.length / (W * ws)) := by
      have := Nat.div_add_mod fl.length (W * ws)
      omega
    have : j < W * ws * (fl.length / (W * ws)) :=
      lt_of_lt_of_le hj.2 (by
        rw [← Nat.succ_mul]
        exact Nat.mul_le_mul_right _ (worker_id_lt_shards hr hw))
    omega

/-- Witness for `npyReader_single_dataset_sharding`: five files, one worker
per process, two ranks; rank 0 worker 0 gets the slice of the first two
files. -/
theorem npyReader_single_dataset_sharding_witness :
    (0 < 1 ∧ 0 < 2 ∧ 0 < 2 ∧ 0 < 1) ∧
    npyReaderYield [10, 20, 30, 40, 50] (some (WorkerInfo.mk 0 1)) 0 2 false
      1 = [some 10, some 20] := by
  refine ⟨by decide, ?_⟩
  have h := (npyReader_single_dataset_sharding [10, 20, 30, 40, 50] 1 2 0 0 1
    (by decide) (by decide) (by decide) (by decide)).1.1
  rw [h]
  decide

/-- C6: with `multi_dataset_training=True`, `NpyReader.__iter__` sets
`num_shards = num_workers_per_ddp * (world_size / NODES)` and reduces the
global rank modulo the per-node GPU count, so the index range is a function
of the node-local rank only: two workers with the same node-local rank and
worker id get exactly the same range. -/
theorem npyReader_multi_dataset_node_local (n W ws r1 r2 num_nodes wid : Nat)
    (hg : 0 < ws / num_nodes)
    (hmod : r1 % (ws / num_nodes) = r2 % (ws / num_nodes)) :
    npyReaderRange n (some (WorkerInfo.mk wid W)) r1 ws true num_nodes =
      npyReaderRange n (some (WorkerInfo.mk wid W)) r2 ws true num_nodes ∧
    npyReaderRange n (some (WorkerInfo.mk wid W)) r1 ws true num_nodes =
      ((r1 % (ws / num_nodes) * W + wid) * (n / (W * (ws / num_nodes))),
       (r1 % (ws / num_nodes) * W + wid) * (n / (W * (ws / num_nodes))) +
         n / (W * (ws / num_nodes))) := by
  constructor
  · unfold npyReaderRange
    simp only [if_true]
    rw [hmod]
  · rfl

/-- Witness for `npyReader_multi_dataset_node_local`: world size 4, two
nodes (two GPUs per node); global ranks 1 and 3 share node-local rank 1 and
get the same range over 8 files. -/
theorem npyReader_multi_dataset_node_local_witness :
    (0 < 4 / 2 ∧ 1 % (4 / 2) = 3 % (4 / 2)) ∧
    npyReaderRange 8 (some (WorkerInfo.mk 0 1)) 1 4 true 2 =
      npyReaderRange 8 (some (WorkerInfo.mk 0 1)) 3 4 true 2 :=
  ⟨by decide,
    (npyReader_multi_dataset_node_local 8 1 4 1 3 2 0 (by decide) (by decide)).1⟩

/-- Replacing the buffer slot read by a step with the incoming element is a
transposition at the multiset level. -/
theorem getD_cons_set_perm (l : List α) (i : Nat) (x : α) (h : i < l.length) :
    (l.getD i x :: l.set i x).Perm (x :: l) := by
  induction l generalizing i with
  | nil => simp at h
  | cons a t ih =>
    cases i with
    | zero =>
      simp only [List.getD_cons_zero, List.set_cons_zero]
      exact List.Perm.swap x a t
    | succ i =>
      simp only [List.getD_cons_succ, List.set_cons_succ]
      have h' : i < t.length := by simpa using h
      have p1 : (t.getD i x :: a :: t.set i x).Perm
          (a :: t.getD i x :: t.set i x) := List.Perm.swap a (t.getD i x) _
      have p2 : (a :: t.getD i x :: t.set i x).Perm (a :: x :: t) :=
        (ih i h').cons a
      have p3 : (a :: x :: t).Perm (x :: a :: t) := List.Perm.swap x a t
      exact p1.trans (p2.trans p3)

/-- Invariant of the `ShuffleIterableDataset` loop: the yields so far plus
the current buffer are a permutation of the buffer plus the remaining
input. -/
theorem shuffleRun_perm (bs : Nat) (g : Nat → Nat) (hbs : 0 < bs)
    (xs : List α) :
    ∀ (step : Nat) (buf : List α),
      ((shuffleRun bs g step buf xs).2 ++ (shuffleRun bs g step buf xs).1).Perm
        (buf ++ xs) := by
  induction xs with
  | nil =>
    intro step buf
    simp [shuffleRun]
  | cons x xs ih =>
    intro step buf
    by_cases hbuf : buf.length = bs
    · have hidx : g step % bs < buf.length := by
        rw [hbuf]
        exact Nat.mod_lt _ hbs
      simp only [shuffleRun, if_pos hbuf]
      rw [List.cons_append]
      refine List.Perm.trans
        ((ih (step + 1) (buf.set (g step % bs) x)).cons _) ?_
      refine List.Perm.trans
        ((getD_cons_set_perm buf (g step % bs) x hidx).append_right xs) ?_
      exact List.perm_middle.symm
    · simp only [shuffleRun, if_neg hbuf]
      have h1 := ih (step + 1) (buf ++ [x])
      simpa using h1

/-- C2: one pass of `ShuffleIterableDataset.__iter__` over a finite
underlying stream yields a permutation of that stream — every element
exactly once, whatever buffer indices are drawn and whatever order the
final shuffle leaves the buffer in. -/
theorem shuffleIterableDataset_perm (bs : Nat) (g : Nat → Nat)
    (xs final_order : List α) (hbs : 0 < bs)
    (hfin : final_order.Perm (shuffleRun bs g 0 [] xs).1) :
    (shuffleIterOutput bs g xs final_order).Perm xs := by
  unfold shuffleIterOutput
  refine List.Perm.trans (List.Perm.append_left _ hfin) ?_
  have h := shuffleRun_perm bs g hbs xs 0 []
  simpa using h

/-- Witness for `shuffleIterableDataset_perm`: buffer size 2 over the
stream `[1, 2, 3]` with draws `g n = n` and final order `[2, 3]`. -/
theorem shuffleIterableDataset_perm_witness :
    (0 < 2 ∧
      List.Perm [2, 3] (shuffleRun 2 (fun n => n) 0 []
        ([1, 2, 3] : List Nat)).1) ∧
    (shuffleIterOutput 2 (fun n => n) ([1, 2, 3] : List Nat) [2, 3]).Perm
      [1, 2, 3] :=
  ⟨⟨by decide, by decide⟩,
    shuffleIterableDataset_perm 2 (fun n => n) [1, 2, 3] [2, 3] (by decide)
      (by decide)⟩

/-- Pointwise value of `replace_constant`: channel `j` holds `y j` exactly
when `j` is a scanned channel whose variable is in the constant list. -/
theorem replace_constant_eval (constants out_variables : List String)
    (C : Nat) (y yhat : Nat → α) (j : Nat) :
    replace_constant constants out_variables C y yhat j =
      if j < C ∧ out_variables.getD j "" ∈ constants then y j else yhat j := by
  induction C with
  | zero => simp [replace_constant]
  | succ C ih =>
    unfold replace_constant at ih ⊢
    rw [List.range_succ, List.foldl_append, List.foldl_cons, List.foldl_nil]
    by_cases hc : out_variables.getD C "" ∈ constants
    · rw [if_pos hc]
      by_cases hj : j = C
      · subst hj
        rw [Function.update_same, if_pos ⟨Nat.lt_succ_self j, hc⟩]
      · rw [Function.update_noteq hj, ih]
        have hiff : (j < C ∧ out_variables.getD j "" ∈ constants) ↔
            (j < C + 1 ∧ out_variables.getD j "" ∈ constants) := by
          constructor
          · rintro ⟨h1, h2⟩
            exact ⟨by omega, h2⟩
          · rintro ⟨h1, h2⟩
            exact ⟨by omega, h2⟩
        rw [if_congr hiff rfl rfl]
    · rw [if_neg hc, ih]
      have hiff : (j < C ∧ out_variables.getD j "" ∈ constants) ↔
          (j < C + 1 ∧ out_variables.getD j "" ∈ constants) := by
        constructor
        · rintro ⟨h1, h2⟩
          exact ⟨by omega, h2⟩
        · rintro ⟨h1, h2⟩
          refine ⟨?_, h2⟩
          rcases Nat.lt_succ_iff_lt_or_eq.mp h1 with h | h
          · exact h
          · subst h
            exact absurd h2 hc
      rw [if_congr hiff rfl rfl]

/-- C8: `replace_constant` returns a tensor whose channel `i` equals
`y[:, i]` for every scanned channel whose variable is in `CONSTANTS`, and
whose every other channel is unchanged from `yhat`. -/
theorem replace_constant_channels (constants out_variables : List String)
    (C : Nat) (y yhat : Nat → α) :
    (∀ i < C, out_variables.getD i "" ∈ constants →
      replace_constant constants out_variables C y yhat i = y i) ∧
    (∀ i < C, out_variables.getD i "" ∉ constants →
      replace_constant constants out_variables C y yhat i = yhat i) ∧
    (∀ i, C ≤ i →
      replace_constant constants out_variables C y yhat i = yhat i) := by
  refine ⟨?_, ?_, ?_⟩
  · intro i hi hmem
    rw [replace_constant_eval]
    exact if_pos ⟨hi, hmem⟩
  · intro i hi hmem
    rw [replace_constant_eval]
    exact if_neg (by
      rintro ⟨_, h2⟩
      exact hmem h2)
  · intro i hi
    rw [replace_constant_eval]
    exact if_neg (by
      rintro ⟨h1, _⟩
      omega)

/-- Witness for `replace_constant_channels`: two channels with variables
`["t2m", "lsm"]` and constant list `["lsm"]`; channel 1 is taken from `y`. -/
theorem replace_constant_channels_witness :
    (1 < 2 ∧ ("lsm" : String) ∈ ["lsm"]) ∧
    replace_constant ["lsm"] ["t2m", "lsm"] 2 (fun i => i + 10)
      (fun i => i) 1 = 1 + 10 :=
  ⟨⟨by decide, by simp⟩,
    (replace_constant_channels ["lsm"] ["t2m", "lsm"] 2 (fun i => i + 10)
      (fun i => i)).1 1 (by decide) (by simp)⟩

end ClimateLearn
